import Mathlib

/-!
Shallow embedding of the Mbed music player (`src/main.cpp`) and proofs about
its control surface, remote protocol parser and playback driver loop.

The C++ globals `currentSong`, `songCount` (both `int`) and `playing` (`bool`)
become the fields of `PlayerState`; C++ `int` is modelled as `Int` (the values
reached in the properties below stay far from the 32-bit bounds, except where
the unsigned 32-bit wrap of `std::string::size_t` matters, which is modelled
explicitly with `% 4294967296`).  The stateful functions of the source become
state-passing Lean functions.
-/

namespace MbedPlayer

/-- The shared playback state: globals `playing`, `currentSong`, `songCount`
of `src/main.cpp` (lines 50-52). -/
structure PlayerState where
  currentSong : Int
  songCount : Int
  playing : Bool
deriving Repr, DecidableEq

/-- `nextSong` (`src/main.cpp` lines 63-74): wraps to 0 when at the last
index, otherwise increments `currentSong`. -/
def nextSong (s : PlayerState) : PlayerState :=
  if s.currentSong = s.songCount - 1 then { s with currentSong := 0 }
  else { s with currentSong := s.currentSong + 1 }

/-- `prevSong` (`src/main.cpp` lines 81-92): wraps to the last index when at
0, otherwise decrements `currentSong`. -/
def prevSong (s : PlayerState) : PlayerState :=
  if s.currentSong = 0 then { s with currentSong := s.songCount - 1 }
  else { s with currentSong := s.currentSong - 1 }

/-- `playSong` (`src/main.cpp` lines 100-104): toggles `playing`. -/
def playSong (s : PlayerState) : PlayerState :=
  { s with playing := !s.playing }

/-- `shuffleSong` (`src/main.cpp` lines 113-119):
`currentSong = int(100000 * (x + y + z)) % songCount`.
`entropy` models the already-truncated integer `int(100000 * (x + y + z))`
obtained from the accelerometer sample; any integer can arise, and a negative
sum `x + y + z` yields a negative `entropy`.  C++ `%` on `int` is truncated
division, i.e. `Int.tmod`. -/
def shuffleSong (entropy : Int) (s : PlayerState) : PlayerState :=
  { s with currentSong := Int.tmod entropy s.songCount }

/-- The `switch (bnum)` dispatch of `BluetoothThread`
(`src/main.cpp` lines 251-271). -/
def applyCommand (bnum : Char) (entropy : Int) (s : PlayerState) : PlayerState :=
  if bnum = '1' then playSong s
  else if bnum = '2' then nextSong s
  else if bnum = '3' then prevSong s
  else if bnum = '4' then shuffleSong entropy s
  else s

/-- The inbound half of one `BluetoothThread` polling iteration
(`src/main.cpp` lines 238-275), over the pending byte stream.  The source
reads one byte; if it is not `!` only that byte is consumed; after `!` it
reads the next byte, and if that is not `B` the two bytes are consumed with
no action; after `! B` it reads `bnum` and `bhit` and dispatches only when
`bhit = '0'`.  An exhausted stream models a blocked `getc`; the iteration is
then a no-op (the source would stall, which no claim exercises).  The parser
produces no output and surfaces no error: the result is only the new state
and the remaining input. -/
def btReadStep (entropy : Int) (s : PlayerState) (input : List Char) :
    PlayerState × List Char :=
  match input with
  | [] => (s, [])
  | b0 :: rest =>
    if b0 = '!' then
      match rest with
      | [] => (s, [])
      | b1 :: rest1 =>
        if b1 = 'B' then
          match rest1 with
          | [] => (s, [])
          | bnum :: rest2 =>
            match rest2 with
            | [] => (s, [])
            | bhit :: rest3 =>
              (if bhit = '0' then applyCommand bnum entropy s else s, rest3)
        else (s, rest1)
    else (s, rest)

/-- Initial value of `previousSongBLE` in `BluetoothThread`
(`src/main.cpp` line 212): the source initializes it to `0`. -/
def previousSongBLEInit : Int := 0

/-- The loop bound `songList[currentSong].size() - 4` of
`src/main.cpp` line 228, computed in the unsigned 32-bit type of
`std::string::size` on the target: `(len - 4) mod 2^32`, written as
`(len + (2^32 - 4)) % 2^32` on `Nat` (`4294967296 = 2^32`). -/
def pushLoopBound (len : Nat) : Nat :=
  (len + (4294967296 - 4)) % 4294967296

/-- The 14-character preamble loop of `src/main.cpp` lines 223-227:
`putc(str[i])` for `i = 0 .. 13` over `str = "Current Song: "`. -/
def preamblePush : List Char :=
  (List.range 14).map (fun i => (String.toList "Current Song: ").getD i ' ')

/-- The name-copy loop of `src/main.cpp` lines 228-231:
`putc(songList[currentSong][i])` for `i` below `pushLoopBound`.  C++
out-of-range `operator[]` is undefined; `getD` stands in for it and is only
relied upon where the index is in range (see the safety property of the
bound). -/
def pushBody (name : List Char) : List Char :=
  (List.range (pushLoopBound name.length)).map (fun i => name.getD i ' ')

/-- The outbound half of one `BluetoothThread` polling iteration with the
transport writable (`src/main.cpp` lines 217-234): if `previousSongBLE`
differs from `currentSong`, emit the preamble, the name-copy loop and a
newline, and set `previousSongBLE := currentSong`; otherwise emit nothing.
Returns the emitted message (if any) and the new `previousSongBLE`. -/
def btPushStep (previousSongBLE currentSong : Int) (name : List Char) :
    Option (List Char) × Int :=
  if previousSongBLE ≠ currentSong then
    (some (preamblePush ++ pushBody name ++ [Char.ofNat 10]), currentSong)
  else
    (none, previousSongBLE)

/-- External effects of one iteration of the main playback loop. -/
inductive DriverEvent where
  | openTrack : Int → DriverEvent
  | displayOpenError : DriverEvent
  | delay : DriverEvent
  | play : Option Nat → DriverEvent
  | closeFile : Option Nat → DriverEvent
  | resetPlaying : DriverEvent
deriving Repr, DecidableEq

/-- One iteration of the main `while (true)` loop (`src/main.cpp` lines
394-414) as the sequence of effects it performs: read `currentSong` and open
its file (`track`, with `openResult` the outcome of `fopen`: `none` is a
NULL handle); if the open failed, print the error to the display; then the
fixed `Thread::wait(1000)` delay; then `waver.play(wave_file)` and
`fclose(wave_file)` with whatever handle `fopen` returned; then reset
`playing` to false. -/
def driverIteration (track : Int) (openResult : Option Nat) : List DriverEvent :=
  [DriverEvent.openTrack track] ++
  (if openResult = none then [DriverEvent.displayOpenError] else []) ++
  [DriverEvent.delay, DriverEvent.play openResult,
   DriverEvent.closeFile openResult, DriverEvent.resetPlaying]

/-- Repeated iterations of the main loop: each iteration reads the then
current value of `currentSong` (paired here with its open outcome). -/
def driverRun : List (Int × Option Nat) → List DriverEvent
  | [] => []
  | (t, r) :: rest => driverIteration t r ++ driverRun rest

/-- A navigation call: `nextSong` (advance) or `prevSong` (retreat). -/
inductive NavOp where
  | advance : NavOp
  | retreat : NavOp
deriving Repr, DecidableEq

/-- Apply one navigation call. -/
def applyNav : NavOp → PlayerState → PlayerState
  | NavOp.advance, s => nextSong s
  | NavOp.retreat, s => prevSong s

/-- Apply a finite sequence of navigation calls, left to right. -/
def applyNavs : List NavOp → PlayerState → PlayerState
  | [], s => s
  | op :: ops, s => applyNavs ops (applyNav op s)

/-- The track-index invariant: `0 ≤ currentSong < songCount`. -/
def TrackInv (s : PlayerState) : Prop :=
  0 ≤ s.currentSong ∧ s.currentSong < s.songCount

/-- In range, `nextSong` is increment modulo `songCount`, with the other
fields untouched. -/
lemma nextSong_emod (s : PlayerState) (h0 : 0 ≤ s.currentSong)
    (h1 : s.currentSong < s.songCount) :
    nextSong s = { s with currentSong := (s.currentSong + 1) % s.songCount } := by
  unfold nextSong
  by_cases hc : s.currentSong = s.songCount - 1
  · have h : (s.currentSong + 1) % s.songCount = 0 := by
      rw [hc, Int.sub_add_cancel, Int.emod_self]
    rw [if_pos hc, h]
  · have h : (s.currentSong + 1) % s.songCount = s.currentSong + 1 :=
      Int.emod_eq_of_lt (by omega) (by omega)
    rw [if_neg hc, h]

/-- In range, `prevSong` is decrement modulo `songCount`, with the other
fields untouched. -/
lemma prevSong_emod (s : PlayerState) (h0 : 0 ≤ s.currentSong)
    (h1 : s.currentSong < s.songCount) :
    prevSong s = { s with currentSong := (s.currentSong - 1 + s.songCount) % s.songCount } := by
  unfold prevSong
  by_cases hc : s.currentSong = 0
  · have h : (s.currentSong - 1 + s.songCount) % s.songCount = s.songCount - 1 := by
      have he : s.currentSong - 1 + s.songCount = s.songCount - 1 := by omega
      rw [he]
      exact Int.emod_eq_of_lt (by omega) (by omega)
    rw [if_pos hc, h]
  · have h : (s.currentSong - 1 + s.songCount) % s.songCount = s.currentSong - 1 := by
      rw [Int.add_emod_self]
      exact Int.emod_eq_of_lt (by omega) (by omega)
    rw [if_neg hc, h]

/-- Claim C5: for every state with `songCount > 0` and
`0 ≤ currentSong < songCount`, `nextSong` sets `currentSong` to
`(currentSong + 1) mod songCount` and `prevSong` sets it to
`(currentSong - 1 + songCount) mod songCount`, with no other field changed
(the record-update form fixes `songCount` and `playing`). -/
theorem nextSong_prevSong_mod_spec (s : PlayerState) (_hn : 0 < s.songCount)
    (h0 : 0 ≤ s.currentSong) (h1 : s.currentSong < s.songCount) :
    nextSong s = { s with currentSong := (s.currentSong + 1) % s.songCount } ∧
    prevSong s = { s with currentSong := (s.currentSong - 1 + s.songCount) % s.songCount } :=
  ⟨nextSong_emod s h0 h1, prevSong_emod s h0 h1⟩

/-- Witness for C5 at the wrap boundary `currentSong = 2`, `songCount = 3`. -/
theorem nextSong_prevSong_mod_spec_witness :
    nextSong { currentSong := 2, songCount := 3, playing := true } =
      { currentSong := (2 + 1) % 3, songCount := 3, playing := true } ∧
    prevSong { currentSong := 2, songCount := 3, playing := true } =
      { currentSong := (2 - 1 + 3) % 3, songCount := 3, playing := true } :=
  nextSong_prevSong_mod_spec { currentSong := 2, songCount := 3, playing := true }
    (by decide) (by decide) (by decide)

/-- `nextSong` preserves the track-index invariant. -/
lemma nextSong_inv (s : PlayerState) (h : TrackInv s) : TrackInv (nextSong s) := by
  obtain ⟨h0, h1⟩ := h
  unfold TrackInv nextSong
  by_cases hc : s.currentSong = s.songCount - 1
  · rw [if_pos hc]
    refine ⟨?_, ?_⟩ <;> dsimp only <;> omega
  · rw [if_neg hc]
    refine ⟨?_, ?_⟩ <;> dsimp only <;> omega

/-- `prevSong` preserves the track-index invariant. -/
lemma prevSong_inv (s : PlayerState) (h : TrackInv s) : TrackInv (prevSong s) := by
  obtain ⟨h0, h1⟩ := h
  unfold TrackInv prevSong
  by_cases hc : s.currentSong = 0
  · rw [if_pos hc]
    refine ⟨?_, ?_⟩ <;> dsimp only <;> omega
  · rw [if_neg hc]
    refine ⟨?_, ?_⟩ <;> dsimp only <;> omega

/-- Each navigation call preserves the track-index invariant. -/
lemma applyNav_inv (op : NavOp) (s : PlayerState) (h : TrackInv s) :
    TrackInv (applyNav op s) := by
  cases op
  · exact nextSong_inv s h
  · exact prevSong_inv s h

/-- Claim C6: for every `songCount > 0`, starting `currentSong` in range and
every finite sequence of advance/retreat calls, `currentSong` stays in
`[0, songCount)`.  Quantifying over all sequences covers every step: the
state after step `k` of a sequence is the state after the length-`k` prefix,
itself a sequence. -/
theorem track_index_invariant (ops : List NavOp) (s : PlayerState)
    (h : TrackInv s) : TrackInv (applyNavs ops s) := by
  induction ops generalizing s with
  | nil => exact h
  | cons op ops ih => exact ih (applyNav op s) (applyNav_inv op s h)

/-- Witness for C6: three advances from track 0 of 3 (the end-to-end scenario
of the spec) stay in range. -/
theorem track_index_invariant_witness :
    TrackInv (applyNavs [NavOp.advance, NavOp.advance, NavOp.advance]
      { currentSong := 0, songCount := 3, playing := false }) :=
  track_index_invariant _ _ ⟨by decide, by decide⟩

/-- Claim C7: for every `songCount > 0` and starting `currentSong` in range,
advance then retreat returns to the original state, and retreat then advance
does likewise, including at the wrap boundary indices `0` and
`songCount - 1`. -/
theorem nextSong_prevSong_inverse (s : PlayerState)
    (h0 : 0 ≤ s.currentSong) (h1 : s.currentSong < s.songCount) :
    prevSong (nextSong s) = s ∧ nextSong (prevSong s) = s := by
  obtain ⟨c, n, p⟩ := s
  simp only at h0 h1
  constructor
  · simp only [nextSong, prevSong]
    split_ifs <;> simp_all [PlayerState.mk.injEq] <;> omega
  · simp only [nextSong, prevSong]
    split_ifs <;> simp_all [PlayerState.mk.injEq]

/-- Witness for C7 at the wrap boundary index 0 with `songCount = 4`. -/
theorem nextSong_prevSong_inverse_witness :
    prevSong (nextSong { currentSong := 0, songCount := 4, playing := false }) =
      { currentSong := 0, songCount := 4, playing := false } ∧
    nextSong (prevSong { currentSong := 0, songCount := 4, playing := false }) =
      { currentSong := 0, songCount := 4, playing := false } :=
  nextSong_prevSong_inverse _ (by decide) (by decide)

/-- Claim C1, counterexample: with 3 tracks and entropy `-1` (a negative
accelerometer sum, e.g. `x + y + z = -0.00001` so
`int(100000 * (x + y + z)) = -1`), a single `shuffleSong` call leaves
`currentSong = -1`, outside `[0, 3)`: C++ `%` on a negative dividend is
nonpositive. -/
theorem shuffleSong_negative_counterexample :
    (shuffleSong (-1) { currentSong := 0, songCount := 3, playing := false }).currentSong = -1 ∧
    ¬ (0 ≤ (shuffleSong (-1) { currentSong := 0, songCount := 3, playing := false }).currentSong) := by
  decide

/-- Claim C1, amended: for every `songCount > 0` and every nonnegative
entropy sample, a single `shuffleSong` call leaves `currentSong` inside
`[0, songCount)`. -/
theorem shuffleSong_in_range_of_nonneg (entropy : Int) (s : PlayerState)
    (he : 0 ≤ entropy) (hn : 0 < s.songCount) :
    0 ≤ (shuffleSong entropy s).currentSong ∧
    (shuffleSong entropy s).currentSong < s.songCount := by
  have h : Int.tmod entropy s.songCount = entropy % s.songCount :=
    Int.tmod_eq_emod he (le_of_lt hn)
  constructor
  · show 0 ≤ Int.tmod entropy s.songCount
    rw [h]
    exact Int.emod_nonneg entropy (by omega)
  · show Int.tmod entropy s.songCount < s.songCount
    rw [h]
    exact Int.emod_lt_of_pos entropy hn

/-- Witness for the amended C1 at entropy 7 with 3 tracks. -/
theorem shuffleSong_in_range_witness :
    0 ≤ (shuffleSong 7 { currentSong := 0, songCount := 3, playing := false }).currentSong ∧
    (shuffleSong 7 { currentSong := 0, songCount := 3, playing := false }).currentSong < 3 :=
  shuffleSong_in_range_of_nonneg 7 { currentSong := 0, songCount := 3, playing := false }
    (by decide) (by decide)

/-- A complete 4-byte frame with valid preamble reduces to the edge-gated
dispatch on the command byte. -/
lemma btReadStep_frame (entropy : Int) (s : PlayerState) (code edge : Char) :
    btReadStep entropy s ['!', 'B', code, edge] =
      (if edge = '0' then applyCommand code entropy s else s, []) := rfl

/-- Claim C2: for every complete inbound frame `! B code edge`, if
`edge = '0'` and `code` is one of `1`..`4` then exactly the mapped operation
runs (1 = toggle-play, 2 = advance, 3 = retreat, 4 = shuffle); otherwise the
shared state is unchanged.  In particular frame `!B10` with
`playing = false` ends with `playing = true`, and frame `!B11` changes
nothing. -/
theorem frame_dispatch (code edge : Char) (entropy : Int) (s : PlayerState) :
    (code = '1' → edge = '0' →
      (btReadStep entropy s ['!', 'B', code, edge]).1 = playSong s) ∧
    (code = '2' → edge = '0' →
      (btReadStep entropy s ['!', 'B', code, edge]).1 = nextSong s) ∧
    (code = '3' → edge = '0' →
      (btReadStep entropy s ['!', 'B', code, edge]).1 = prevSong s) ∧
    (code = '4' → edge = '0' →
      (btReadStep entropy s ['!', 'B', code, edge]).1 = shuffleSong entropy s) ∧
    (edge ≠ '0' → (btReadStep entropy s ['!', 'B', code, edge]).1 = s) ∧
    (code ≠ '1' → code ≠ '2' → code ≠ '3' → code ≠ '4' →
      (btReadStep entropy s ['!', 'B', code, edge]).1 = s) ∧
    (btReadStep entropy { s with playing := false } ['!', 'B', '1', '0']).1.playing = true ∧
    (btReadStep entropy s ['!', 'B', '1', '1']).1 = s := by
  refine ⟨?_, ?_, ?_, ?_, ?_, ?_, ?_, ?_⟩ <;> intros <;>
    simp_all [btReadStep_frame, applyCommand, playSong]

/-- Witness for C2: frame `!B20` advances `currentSong` exactly once. -/
theorem frame_dispatch_witness :
    (btReadStep 0 { currentSong := 0, songCount := 2, playing := false }
        ['!', 'B', '2', '0']).1 =
      nextSong { currentSong := 0, songCount := 2, playing := false } :=
  (frame_dispatch '2' '0' 0 { currentSong := 0, songCount := 2, playing := false }).2.1
    rfl rfl

/-- Claim C3, counterexample: `previousSongBLE` starts at `0`, which is a
valid track index (it lies in `[0, 1)` already for a single-track library),
not an out-of-range sentinel; consequently with `currentSong = 0` the first
writable cycle emits no status push. -/
theorem previousSongBLE_init_counterexample :
    previousSongBLEInit = 0 ∧ 0 ≤ previousSongBLEInit ∧ previousSongBLEInit < 1 ∧
    (btPushStep previousSongBLEInit 0 (String.toList "a.wav")).1 = none := by
  decide

/-- Claim C3, amended: at task start the last-pushed index is initialized to
`0` (a valid track index when the library is nonempty), so the first
writable cycle emits a push precisely when `currentSong ≠ 0`; after every
successful push the stored index becomes the pushed `currentSong`, and when
it already matches, nothing is emitted and it is unchanged. -/
theorem blePush_init_and_update (cur : Int) (name : List Char) :
    previousSongBLEInit = 0 ∧
    ((btPushStep previousSongBLEInit cur name).1.isSome ↔ cur ≠ 0) ∧
    (∀ prev : Int, prev ≠ cur → (btPushStep prev cur name).2 = cur) ∧
    (∀ prev : Int, prev = cur →
      (btPushStep prev cur name).1 = none ∧ (btPushStep prev cur name).2 = prev) := by
  refine ⟨rfl, ?_, ?_, ?_⟩
  · by_cases h : cur = 0
    · simp [btPushStep, previousSongBLEInit, h]
    · simp [btPushStep, previousSongBLEInit, h, Ne.symm h]
  · intro prev h
    simp [btPushStep, h]
  · intro prev h
    simp [btPushStep, h]

/-- Witness for the amended C3: a push from stored index 3 to track 5 stores
5. -/
theorem blePush_init_and_update_witness :
    (btPushStep 3 5 []).2 = 5 :=
  (blePush_init_and_update 5 []).2.2.1 3 (by decide)

/-- Claim C4, counterexample: when `fopen` fails (NULL handle), the
iteration still performs the playback call — and the close — on the failed
handle, so the iteration is not idle with respect to the failed handle. -/
theorem driver_null_handle_counterexample :
    DriverEvent.play none ∈ driverIteration 0 none ∧
    DriverEvent.closeFile none ∈ driverIteration 0 none := by
  decide

/-- Claim C4, amended: when the open for the current track fails, an error
indicator is surfaced to the display (and only then), the fixed delay is
imposed, the iteration runs to completion ending with the `playing` reset
(non-fatal), and the loop goes on to its next iteration, which reads
whatever `currentSong` then holds; however `waver.play` and `fclose` are
still invoked with the failed NULL handle rather than being skipped. -/
theorem driver_open_failure_behavior (track : Int) (openResult : Option Nat) :
    (openResult = none →
      DriverEvent.displayOpenError ∈ driverIteration track openResult) ∧
    (openResult ≠ none →
      DriverEvent.displayOpenError ∉ driverIteration track openResult) ∧
    DriverEvent.delay ∈ driverIteration track openResult ∧
    DriverEvent.resetPlaying ∈ driverIteration track openResult ∧
    (driverIteration track openResult).getLast? = some DriverEvent.resetPlaying ∧
    (∀ t2 r2 rest, DriverEvent.openTrack t2 ∈
      driverRun ((track, openResult) :: (t2, r2) :: rest)) := by
  cases openResult <;> simp [driverIteration, driverRun]

/-- Witness for the amended C4: a failed open on track 2 surfaces the error
indicator. -/
theorem driver_open_failure_witness :
    DriverEvent.displayOpenError ∈ driverIteration 2 none :=
  (driver_open_failure_behavior 2 none).1 rfl

/-- Claim C8: for every inbound byte sequence whose first consumed byte is
not `!`, or is `!` but is followed by a byte other than `B`, the parser
performs no control-surface operation: the whole shared state (hence
`currentSong`, `playing` and `songCount`) is unchanged.  `btReadStep`
returns only the state and the remaining input, so no error is surfaced. -/
theorem malformed_preamble_no_change (b0 b1 : Char) (rest : List Char)
    (entropy : Int) (s : PlayerState) (h : b0 ≠ '!' ∨ b1 ≠ 'B') :
    (btReadStep entropy s (b0 :: b1 :: rest)).1 = s := by
  rcases h with h | h
  · simp [btReadStep, h]
  · by_cases h0 : b0 = '!' <;> simp [btReadStep, h0, h]

/-- Witness for C8 on the malformed frame `!XY0` of the spec. -/
theorem malformed_preamble_no_change_witness :
    (btReadStep 0 { currentSong := 0, songCount := 3, playing := false }
        ['!', 'X', 'Y', '0']).1 =
      { currentSong := 0, songCount := 3, playing := false } :=
  malformed_preamble_no_change '!' 'X' ['Y', '0'] 0
    { currentSong := 0, songCount := 3, playing := false } (Or.inr (by decide))

/-- For names of length at least 4 (and below the unsigned 32-bit wrap), the
copy-loop bound is `length - 4`. -/
lemma pushLoopBound_of_le (len : Nat) (h4 : 4 ≤ len) (hlt : len < 4294967296) :
    pushLoopBound len = len - 4 := by
  unfold pushLoopBound
  omega

/-- Copying the first `k` characters by index equals `List.take k`. -/
lemma map_getD_range_eq_take (l : List Char) (k : Nat) (h : k ≤ l.length) :
    (List.range k).map (fun i => l.getD i ' ') = l.take k := by
  induction k with
  | zero => simp
  | succ n ih =>
    rw [List.range_succ, List.map_append, ih (by omega), List.take_succ]
    have hn : n < l.length := by omega
    simp [List.getD, List.getElem?_eq_getElem hn]

/-- Under the length precondition, the name-copy loop emits the name with
its last 4 characters removed. -/
lemma pushBody_eq_take (name : List Char) (h4 : 4 ≤ name.length)
    (hlt : name.length < 4294967296) :
    pushBody name = name.take (name.length - 4) := by
  unfold pushBody
  rw [pushLoopBound_of_le name.length h4 hlt]
  exact map_getD_range_eq_take name (name.length - 4) (by omega)

/-- The 14-iteration preamble loop emits exactly the string
`"Current Song: "`. -/
lemma preamblePush_eq : preamblePush = String.toList "Current Song: " := by decide

/-- Claim C9: on a writable polling cycle the parser emits a status message
if and only if `currentSong` differs from the last pushed value, and (for a
name of length at least 4, within the 32-bit range) the message is exactly
`"Current Song: "` followed by the name with its last 4 characters removed,
followed by a single newline (`Char.ofNat 10`). -/
theorem status_push_spec (prev cur : Int) (name : List Char)
    (h4 : 4 ≤ name.length) (hlt : name.length < 4294967296) :
    ((btPushStep prev cur name).1.isSome ↔ prev ≠ cur) ∧
    (prev ≠ cur →
      (btPushStep prev cur name).1 =
        some (String.toList "Current Song: " ++
          name.take (name.length - 4) ++ [Char.ofNat 10])) := by
  constructor
  · by_cases h : prev = cur <;> simp [btPushStep, h]
  · intro h
    rw [show (btPushStep prev cur name).1 =
        some (preamblePush ++ pushBody name ++ [Char.ofNat 10]) by
      simp [btPushStep, h]]
    rw [preamblePush_eq, pushBody_eq_take name h4 hlt]

/-- Witness for C9 on the name `s.wav` with a pending change from 1 to 0. -/
theorem status_push_spec_witness :
    ((btPushStep 1 0 (String.toList "s.wav")).1.isSome ↔ (1 : Int) ≠ 0) ∧
    ((1 : Int) ≠ 0 →
      (btPushStep 1 0 (String.toList "s.wav")).1 =
        some (String.toList "Current Song: " ++
          (String.toList "s.wav").take ((String.toList "s.wav").length - 4) ++
          [Char.ofNat 10])) :=
  status_push_spec 1 0 (String.toList "s.wav") (by decide) (by decide)

/-- Claim C10: the copy-loop bound `size() - 4` is computed in unsigned
32-bit arithmetic, so a name shorter than 4 characters wraps it around to
`4294967292 + length`, which exceeds every in-range index (out-of-range
indexing); under the precondition that the name has length at least 4,
every index `i` below the bound is in range (`i < length`). -/
theorem push_index_safety (len : Nat) :
    (len < 4 → pushLoopBound len = 4294967292 + len ∧ len < pushLoopBound len) ∧
    (4 ≤ len → len < 4294967296 → ∀ i, i < pushLoopBound len → i < len) := by
  constructor
  · intro h
    unfold pushLoopBound
    omega
  · intro h4 hlt i hi
    rw [pushLoopBound_of_le len h4 hlt] at hi
    omega

/-- Witness for C10 at length 3: the bound wraps to 4294967295. -/
theorem push_index_safety_witness :
    pushLoopBound 3 = 4294967292 + 3 ∧ 3 < pushLoopBound 3 :=
  (push_index_safety 3).1 (by decide)

end MbedPlayer
